import Mathlib

/-!
Verification of the bvar-rust in-process metrics core against its
specification.  The development shallowly embeds the Rust sources:

* src/detail/combiner.rs — thread-sharded agents and the fold/reset engine;
* src/reducer.rs         — the public Reducer operations layered on top;
* src/detail/series.rs   — the four-tier time-series store;
* src/window.rs          — the tier capacity constants;
* src/variable.rs        — the global expose/hide name registry;
* src/detail/sampler.rs  — samplers and the global sampler registry;
* src/recorder.rs        — the averaging recorder.

Thread-local storage is modelled as an association list keyed by a thread
identifier; clock reads (Instant::now / SystemTime::now) become explicit
time parameters in milliseconds; mutation becomes explicit state passing.
-/

namespace BvarSpec

/-- A thread-local agent holding one worker's partial aggregate
(src/detail/combiner.rs, struct Agent). -/
structure Agent (T : Type) where
  value : T
  id : Nat
deriving Repr, DecidableEq

/-- The thread-sharded combiner (src/detail/combiner.rs, struct AgentCombiner).
The ThreadLocal store is modelled as an association list from thread id to
Agent, in first-touch order; `op` is the stored combiner operation. -/
structure AgentCombiner (T : Type) where
  tls : List (Nat × Agent T)
  identity : T
  op : T → T → T
  next_id : Nat

/-- AgentCombiner::new (src/detail/combiner.rs:78): empty tls, next_id = 1. -/
def AgentCombiner.new {T : Type} (identity : T) (op : T → T → T) : AgentCombiner T :=
  { tls := [], identity := identity, op := op, next_id := 1 }

/-- AgentCombiner::get_or_create_tls_agent (src/detail/combiner.rs:89):
returns the calling thread's agent, lazily creating it with
value = identity and id = next_id (then next_id + 1). -/
def AgentCombiner.get_or_create_tls_agent {T : Type} (c : AgentCombiner T) (tid : Nat) :
    Agent T × AgentCombiner T :=
  match c.tls.find? (fun p => p.1 == tid) with
  | some p => (p.2, c)
  | none =>
    let agent : Agent T := { value := c.identity, id := c.next_id }
    (agent, { c with tls := c.tls ++ [(tid, agent)], next_id := c.next_id + 1 })

/-- AgentCombiner::combine_agents (src/detail/combiner.rs:102-111).
The source initialises `result = identity.clone()`, then for every agent
computes `self.op.combine(result.clone(), agent_value)` WITHOUT using the
returned value, and finally returns `result`.  The discarded computations
are kept here as a dead let-binding, exactly as in the source. -/
def AgentCombiner.combine_agents {T : Type} (c : AgentCombiner T) : T :=
  let result := c.identity
  let _ := c.tls.map (fun p => c.op result p.2.value)
  result

/-- AgentCombiner::reset_all_agents (src/detail/combiner.rs:114-123):
computes combine_agents, then overwrites every agent's value with the
identity, returning the pre-reset combined value together with the new
state. -/
def AgentCombiner.reset_all_agents {T : Type} (c : AgentCombiner T) : T × AgentCombiner T :=
  let result := c.combine_agents
  (result,
    { c with tls := c.tls.map (fun p => (p.1, { value := c.identity, id := p.2.id })) })

/-- Reducer::add (src/reducer.rs:71-78): clones the op, locates (or lazily
creates) the calling thread's agent, computes
`op.combine(guard.value.clone(), value)` and DISCARDS the result — the
agent's stored value is never written back.  The discarded combine is kept
as a dead let-binding, exactly as in the source. -/
def Reducer.add {T : Type} (c : AgentCombiner T) (tid : Nat) (value : T) : AgentCombiner T :=
  let op := c.op
  let pair := c.get_or_create_tls_agent tid
  let _ := op pair.1.value value
  pair.2

/-- Reducer::get_value (src/reducer.rs:81-83): delegates to combine_agents. -/
def Reducer.get_value {T : Type} (c : AgentCombiner T) : T :=
  c.combine_agents

/-- Reducer::reset (src/reducer.rs:86-88): delegates to reset_all_agents. -/
def Reducer.reset {T : Type} (c : AgentCombiner T) : T × AgentCombiner T :=
  c.reset_all_agents

/-- The op-reduction of all added values starting from identity — what the
spec says fold should return (spec §4.1, §8.1). -/
def specFold {T : Type} (identity : T) (op : T → T → T) (values : List T) : T :=
  values.foldl op identity

/-- C1: the claim says that after a single add(5) on a sum reducer with
identity 0, fold (Reducer::get_value) returns 5.  The code violates this:
both Reducer::add (src/reducer.rs:75) and AgentCombiner::combine_agents
(src/detail/combiner.rs:107) discard the value returned by op.combine, so
the shard is never updated and the fold accumulator is never threaded —
get_value returns the identity for every reachable state.  The spec itself
flags this discard as a defect (§4.1, §8.1, §9), so the claim is right and
the code is wrong.  This theorem evaluates the embedded code at the failing
input: get_value after add(5) is 0, not 5, and combine_agents returns the
identity on every state while the spec-side reduction of the added values
is 5. -/
theorem c1_fold_discard_code_bug :
    Reducer.get_value (Reducer.add (AgentCombiner.new (0 : Int) (· + ·)) 0 5) = 0
    ∧ Reducer.get_value (Reducer.add (AgentCombiner.new (0 : Int) (· + ·)) 0 5) ≠ 5
    ∧ specFold (0 : Int) (· + ·) [5] = 5
    ∧ ∀ (c : AgentCombiner Int), c.combine_agents = c.identity := by
  refine ⟨rfl, by decide, rfl, fun c => rfl⟩

/-- C2: Reducer::reset (AgentCombiner::reset_all_agents) returns exactly the
value fold (combine_agents) would have returned immediately prior, a
subsequent fold with no intervening add returns the identity element, and
every shard's value has been overwritten with the identity. -/
theorem c2_reset_snapshot {T : Type} (c : AgentCombiner T) :
    (Reducer.reset c).1 = Reducer.get_value c
    ∧ Reducer.get_value (Reducer.reset c).2 = c.identity
    ∧ (Reducer.reset c).2.tls
        = c.tls.map (fun p => (p.1, { value := c.identity, id := p.2.id })) :=
  ⟨rfl, rfl, rfl⟩

/-! ## Time-series store (src/detail/series.rs, src/window.rs) -/

/-- src/window.rs:36 — default second-level window size (60 seconds). -/
def WINDOW_SIZE_SECOND : Nat := 60

/-- src/window.rs:38 — default minute-level window size (60 minutes). -/
def WINDOW_SIZE_MINUTE : Nat := 60

/-- src/window.rs:40 — default hour-level window size (24 hours). -/
def WINDOW_SIZE_HOUR : Nat := 24

/-- src/window.rs:42 — default day-level window size (30 days). -/
def WINDOW_SIZE_DAY : Nat := 30

/-- src/window.rs:45 — capacity of the second-tier ring. -/
def SERIES_IN_SECOND : Nat := WINDOW_SIZE_SECOND

/-- src/window.rs:47 — capacity of the minute-tier ring. -/
def SERIES_IN_MINUTE : Nat := WINDOW_SIZE_MINUTE

/-- src/window.rs:49 — capacity of the hour-tier ring. -/
def SERIES_IN_HOUR : Nat := WINDOW_SIZE_HOUR

/-- src/window.rs:51 — capacity of the day-tier ring. -/
def SERIES_IN_DAY : Nat := WINDOW_SIZE_DAY

/-- A sampled data point (src/detail/series.rs, struct DataPoint):
a value plus a Unix timestamp in milliseconds. -/
structure DataPoint (T : Type) where
  value : T
  timestamp : Nat
deriving Repr, DecidableEq

/-- The four-tier time-series store (src/detail/series.rs, struct Series).
Clock reads become explicit `now` parameters (milliseconds); the single
shared watermark last_sample_time gates promotion into every tier.  The
stored combiner op is not consulted by append/describe and is omitted. -/
structure Series (T : Type) where
  second_points : List (DataPoint T)
  minute_points : List (DataPoint T)
  hour_points : List (DataPoint T)
  day_points : List (DataPoint T)
  last_point : Option (DataPoint T)
  last_sample_time : Option Nat
deriving Repr, DecidableEq

/-- Series::new (src/detail/series.rs:76-86): all tiers empty, no last
point, no watermark. -/
def Series.new {T : Type} : Series T :=
  { second_points := [], minute_points := [], hour_points := [],
    day_points := [], last_point := none, last_sample_time := none }

/-- Series::add_to_series (src/detail/series.rs:134-144): push the point at
the end; if the length now exceeds the tier capacity, remove the front
(oldest) point. -/
def add_to_series {T : Type} (series : List (DataPoint T)) (point : DataPoint T)
    (max_size : Nat) : List (DataPoint T) :=
  let series := series ++ [point]
  if series.length > max_size then series.drop 1 else series

/-- The four admission decisions of one Series::append call
(src/detail/series.rs:96-108, the four should_sample_* locals). -/
structure SampleGates where
  second : Bool
  minute : Bool
  hour : Bool
  day : Bool
deriving Repr, DecidableEq

/-- The gate computation inside Series::append: when the shared watermark is
unset, only the second tier admits; otherwise each tier compares the SAME
elapsed time (now - last_sample_time) against its own threshold
(1 s / 60 s / 3600 s / 86400 s, in milliseconds here). -/
def Series.gates {T : Type} (s : Series T) (now : Nat) : SampleGates :=
  match s.last_sample_time with
  | none => ⟨true, false, false, false⟩
  | some last =>
    let elapsed := now - last
    ⟨decide (1000 ≤ elapsed), decide (60000 ≤ elapsed),
     decide (3600000 ≤ elapsed), decide (86400000 ≤ elapsed)⟩

/-- Series::append (src/detail/series.rs:89-131): wrap the value with the
current time, always update last_point, compute the four gates from the one
shared watermark, advance the watermark iff the second gate fires, and add
the point to each tier whose gate fired. -/
def Series.append {T : Type} (s : Series T) (value : T) (now : Nat) : Series T :=
  let point : DataPoint T := { value := value, timestamp := now }
  let s := { s with last_point := some point }
  let g := s.gates now
  let s := if g.second then { s with last_sample_time := some now } else s
  let s := if g.second then
      { s with second_points := add_to_series s.second_points point SERIES_IN_SECOND } else s
  let s := if g.minute then
      { s with minute_points := add_to_series s.minute_points point SERIES_IN_MINUTE } else s
  let s := if g.hour then
      { s with hour_points := add_to_series s.hour_points point SERIES_IN_HOUR } else s
  if g.day then
      { s with day_points := add_to_series s.day_points point SERIES_IN_DAY } else s

/-- A whole sequence of append calls, given as (time, value) pairs. -/
def Series.appendAll {T : Type} (s : Series T) (l : List (Nat × T)) : Series T :=
  l.foldl (fun s p => s.append p.2 p.1) s

/-- Consecutive appends each at least 1 s and less than 60 s after the
previous one (times in milliseconds), starting from time t. -/
def cadenceOk {T : Type} : Nat → List (Nat × T) → Bool
  | _, [] => true
  | t, p :: rest =>
    decide (t + 1000 ≤ p.1) && decide (p.1 - t < 60000) && cadenceOk p.1 rest

/-- Unfolding an appendAll one step. -/
theorem Series.appendAll_cons {T : Type} (s : Series T) (p : Nat × T) (rest : List (Nat × T)) :
    s.appendAll (p :: rest) = (s.append p.2 p.1).appendAll rest := rfl

/-- Field-wise characterisation of Series::append: every tier is updated iff
its gate fired, the watermark advances iff the second gate fired, and
last_point is always replaced. -/
theorem Series.append_eq {T : Type} (s : Series T) (v : T) (now : Nat) :
    s.append v now =
      { second_points := if (s.gates now).second then
            add_to_series s.second_points ⟨v, now⟩ SERIES_IN_SECOND else s.second_points,
        minute_points := if (s.gates now).minute then
            add_to_series s.minute_points ⟨v, now⟩ SERIES_IN_MINUTE else s.minute_points,
        hour_points := if (s.gates now).hour then
            add_to_series s.hour_points ⟨v, now⟩ SERIES_IN_HOUR else s.hour_points,
        day_points := if (s.gates now).day then
            add_to_series s.day_points ⟨v, now⟩ SERIES_IN_DAY else s.day_points,
        last_point := some ⟨v, now⟩,
        last_sample_time := if (s.gates now).second then some now else s.last_sample_time } := by
  have hg : ({ s with last_point := some ⟨v, now⟩ } : Series T).gates now = s.gates now := rfl
  cases hsec : (s.gates now).second <;> cases hmin : (s.gates now).minute <;>
    cases hhr : (s.gates now).hour <;> cases hday : (s.gates now).day <;>
      simp [Series.append, hg, hsec, hmin, hhr, hday]

/-- If the watermark is set and every further append comes at least 1 s and
less than 60 s after the previous one, the minute/hour/day tiers never
receive a point. -/
theorem appendAll_slow_tiers_empty {T : Type} (l : List (Nat × T)) :
    ∀ (s : Series T) (t : Nat),
      s.last_sample_time = some t →
      s.minute_points = [] → s.hour_points = [] → s.day_points = [] →
      cadenceOk t l = true →
      (s.appendAll l).minute_points = []
      ∧ (s.appendAll l).hour_points = []
      ∧ (s.appendAll l).day_points = [] := by
  induction l with
  | nil => exact fun s t _ hm hh hd _ => ⟨hm, hh, hd⟩
  | cons p rest ih =>
    intro s t hw hm hh hd hc
    simp only [cadenceOk, Bool.and_eq_true, decide_eq_true_eq] at hc
    obtain ⟨⟨h1, h2⟩, hrest⟩ := hc
    have hg : s.gates p.1 = ⟨true, false, false, false⟩ := by
      simp only [Series.gates, hw]
      have e1 : 1000 ≤ p.1 - t := by omega
      have e2 : ¬ (60000 ≤ p.1 - t) := by omega
      have e3 : ¬ (3600000 ≤ p.1 - t) := by omega
      have e4 : ¬ (86400000 ≤ p.1 - t) := by omega
      simp [e1, e2, e3, e4]
    rw [Series.appendAll_cons]
    exact ih (s.append p.2 p.1) p.1
      (by simp [Series.append_eq, hg])
      (by simp [Series.append_eq, hg, hm])
      (by simp [Series.append_eq, hg, hh])
      (by simp [Series.append_eq, hg, hd])
      hrest

/-- C3, counterexample to the final sentence of the claim: the appends at
times 0 ms, 500 ms and 60400 ms are each less than 60 s after the previous
one, yet the minute tier receives the third point — because the 500 ms
append does not advance the shared watermark (elapsed < 1 s), the third
call sees 60.4 s of elapsed time since the watermark. -/
theorem c3_counterexample :
    (500 - 0 < 60000 ∧ 60400 - 500 < 60000)
    ∧ ((Series.new : Series Nat).appendAll [(0, 1), (500, 2), (60400, 3)]).minute_points ≠ [] := by
  decide

/-- C3, amended: (first part, as claimed) all four tiers are gated by the
one shared watermark last_sample_time — a point is admitted to the minute
(hour, day) tier exactly when the elapsed time since that single watermark
is at least 60 s (3600 s, 86400 s), and any such call also admits the point
to the second tier and advances the watermark.  (second part, amended) The
consequence holds for appends that each come at least 1 s and less than
60 s after the previous one (e.g. once per 30 s): the minute, hour and day
tiers stay empty.  (The unamended consequence, for arbitrary gaps below
60 s, is refuted by c3_counterexample: a sub-second append leaves the
watermark behind.) -/
theorem c3_shared_watermark_gating {T : Type} :
    (∀ (s : Series T) (v : T) (now : Nat),
        ((s.gates now).minute = true ↔
          ∃ last, s.last_sample_time = some last ∧ 60000 ≤ now - last)
      ∧ ((s.gates now).hour = true ↔
          ∃ last, s.last_sample_time = some last ∧ 3600000 ≤ now - last)
      ∧ ((s.gates now).day = true ↔
          ∃ last, s.last_sample_time = some last ∧ 86400000 ≤ now - last)
      ∧ ((s.gates now).minute = true →
          (s.gates now).second = true
          ∧ (s.append v now).last_sample_time = some now
          ∧ (s.append v now).second_points
              = add_to_series s.second_points ⟨v, now⟩ SERIES_IN_SECOND)
      ∧ ((s.gates now).minute = false → (s.append v now).minute_points = s.minute_points)
      ∧ ((s.gates now).hour = false → (s.append v now).hour_points = s.hour_points)
      ∧ ((s.gates now).day = false → (s.append v now).day_points = s.day_points))
    ∧ (∀ (v0 : T) (t0 : Nat) (l : List (Nat × T)),
        cadenceOk t0 l = true →
          ((Series.new.append v0 t0).appendAll l).minute_points = []
          ∧ ((Series.new.append v0 t0).appendAll l).hour_points = []
          ∧ ((Series.new.append v0 t0).appendAll l).day_points = []) := by
  constructor
  · intro s v now
    cases hw : s.last_sample_time with
    | none =>
      have hg : s.gates now = ⟨true, false, false, false⟩ := by
        simp [Series.gates, hw]
      refine ⟨?_, ?_, ?_, ?_, ?_, ?_, ?_⟩ <;>
        simp [hg, hw, Series.append_eq]
    | some last =>
      have hg : s.gates now =
          ⟨decide (1000 ≤ now - last), decide (60000 ≤ now - last),
           decide (3600000 ≤ now - last), decide (86400000 ≤ now - last)⟩ := by
        simp [Series.gates, hw]
      refine ⟨?_, ?_, ?_, ?_, ?_, ?_, ?_⟩
      · simp [hg, hw]
      · simp [hg, hw]
      · simp [hg, hw]
      · intro hmin
        have hm : 60000 ≤ now - last := by simpa [hg] using hmin
        have hsec : (s.gates now).second = true := by
          simp [hg]; omega
        exact ⟨hsec, by simp [Series.append_eq, hsec], by simp [Series.append_eq, hsec]⟩
      · intro h; simp [Series.append_eq, h]
      · intro h; simp [Series.append_eq, h]
      · intro h; simp [Series.append_eq, h]
  · intro v0 t0 l hc
    have hbase : ((Series.new : Series T).append v0 t0).last_sample_time = some t0 := by
      simp [Series.append_eq, Series.gates, Series.new]
    refine appendAll_slow_tiers_empty l _ t0 hbase ?_ ?_ ?_ hc <;>
      simp [Series.append_eq, Series.gates, Series.new]

/-- Witness for c3_shared_watermark_gating at concrete inputs: a 30-second
cadence (the spec §8.6 scenario) keeps the minute/hour/day tiers empty, and
a minute-gate firing at 60 s elapsed also fires the second gate and
advances the watermark. -/
theorem c3_witness :
    (cadenceOk (T := Nat) 0 [(30000, 2), (60000, 3)] = true
      ∧ ((((Series.new : Series Nat).append 1 0).appendAll [(30000, 2), (60000, 3)]).minute_points = []
        ∧ (((Series.new : Series Nat).append 1 0).appendAll [(30000, 2), (60000, 3)]).hour_points = []
        ∧ (((Series.new : Series Nat).append 1 0).appendAll [(30000, 2), (60000, 3)]).day_points = []))
    ∧ ((((Series.new : Series Nat).append 1 0).gates 60000).second = true
        ∧ ((((Series.new : Series Nat).append 1 0).append 5 60000).last_sample_time = some 60000
        ∧ (((Series.new : Series Nat).append 1 0).append 5 60000).second_points
            = add_to_series ((Series.new : Series Nat).append 1 0).second_points ⟨5, 60000⟩ SERIES_IN_SECOND)) :=
  ⟨⟨by decide,
    (c3_shared_watermark_gating (T := Nat)).2 1 0 [(30000, 2), (60000, 3)] (by decide)⟩,
   ((c3_shared_watermark_gating (T := Nat)).1 ((Series.new : Series Nat).append 1 0) 5 60000).2.2.2.1
     (by decide)⟩

/-- Ring-buffer fold: inserting a batch of points one by one into a tier,
starting from a state within capacity, keeps exactly the most recent `cap`
points of the concatenation, in insertion order. -/
theorem add_to_series_foldl {T : Type} (ps : List (DataPoint T)) :
    ∀ (acc : List (DataPoint T)) (cap : Nat), acc.length ≤ cap →
      ps.foldl (fun l p => add_to_series l p cap) acc
        = (acc ++ ps).drop ((acc ++ ps).length - cap) := by
  induction ps with
  | nil =>
    intro acc cap hle
    simp [Nat.sub_eq_zero_of_le hle]
  | cons p rest ih =>
    intro acc cap hle
    simp only [List.foldl_cons]
    by_cases hfull : acc.length + 1 ≤ cap
    · have hstep : add_to_series acc p cap = acc ++ [p] := by
        simp [add_to_series]; omega
      rw [hstep, ih (acc ++ [p]) cap (by simpa using hfull)]
      simp [List.append_assoc]
    · have hacc : acc.length = cap := by omega
      have hstep : add_to_series acc p cap = (acc ++ [p]).drop 1 := by
        simp [add_to_series]; omega
      have hlen1 : ((acc ++ [p]).drop 1).length ≤ cap := by
        simp only [List.length_drop, List.length_append, List.length_cons, List.length_nil]
        omega
      have hkey : (acc ++ [p]).drop 1 ++ rest = (acc ++ p :: rest).drop 1 := by
        cases acc <;> simp
      rw [hstep, ih ((acc ++ [p]).drop 1) cap hlen1, hkey, List.drop_drop]
      congr 1
      simp only [List.length_drop, List.length_append, List.length_cons, hacc]
      omega

/-- C4: for every tier capacity (60/60/24/30 for second/minute/hour/day),
admitting capacity + k points into an (initially empty) tier ring leaves
exactly the most recent capacity points in insertion order; and each single
insertion appends at the end and evicts exactly one point from the front
iff the length then exceeds the capacity. -/
theorem c4_ring_eviction {T : Type} (ps : List (DataPoint T)) (k cap : Nat)
    (_hcap : cap = SERIES_IN_SECOND ∨ cap = SERIES_IN_MINUTE
            ∨ cap = SERIES_IN_HOUR ∨ cap = SERIES_IN_DAY)
    (hlen : ps.length = cap + k) :
    ps.foldl (fun l p => add_to_series l p cap) [] = ps.drop k
    ∧ ∀ (l : List (DataPoint T)) (p : DataPoint T),
        add_to_series l p cap
          = if (l ++ [p]).length > cap then (l ++ [p]).drop 1 else l ++ [p] := by
  constructor
  · rw [add_to_series_foldl ps [] cap (by simp)]
    simp [hlen]
  · intro l p; rfl

/-- Witness for c4_ring_eviction: 25 points through the 24-slot hour tier
leave the most recent 24. -/
theorem c4_witness :
    ((List.range 25).map (fun i => ({ value := i, timestamp := i } : DataPoint Nat))).foldl
        (fun l p => add_to_series l p SERIES_IN_HOUR) []
      = ((List.range 25).map (fun i => ({ value := i, timestamp := i } : DataPoint Nat))).drop 1 :=
  (c4_ring_eviction
    ((List.range 25).map (fun i => ({ value := i, timestamp := i } : DataPoint Nat)))
    1 SERIES_IN_HOUR (Or.inr (Or.inr (Or.inl rfl))) (by decide)).1

/-! ## Global variable registry (src/variable.rs) -/

/-- An entry of the global EXPOSED_VARS table (src/variable.rs, struct
VarEntry): the registrant's pointer address and type id, the identity used
for comparisons. -/
structure VarEntry where
  var_ptr : Nat
  type_id : Nat
deriving Repr, DecidableEq

/-- The global EXPOSED_VARS map (src/variable.rs:22), modelled as a
function from full names to optional entries (DashMap is unordered, so the
function view is exact). -/
def VarTable : Type := String → Option VarEntry

/-- The empty table (initial Lazy state). -/
def VarTable.emptyTable : VarTable := fun _ => none

/-- DashMap::insert. -/
def VarTable.insert (t : VarTable) (nm : String) (e : VarEntry) : VarTable :=
  fun k => if k = nm then some e else t k

/-- DashMap::remove (the key side). -/
def VarTable.remove (t : VarTable) (nm : String) : VarTable :=
  fun k => if k = nm then none else t k

/-- Full-name construction (src/variable.rs:92-96): name, or the two parts
joined with an underscore when the first part is nonempty. -/
def full_name (pre nm : String) : String :=
  if pre = "" then nm else pre ++ "_" ++ nm

/-- Variable::default_expose_impl (src/variable.rs:90-112): build the full
name and the entry (caller address + type id); if the name is already in
the table return -1 and leave the table unchanged, else insert and
return 0. -/
def default_expose_impl (t : VarTable) (self_ptr ty : Nat) (pre nm : String) :
    Int × VarTable :=
  let fname := full_name pre nm
  let entry : VarEntry := { var_ptr := self_ptr, type_id := ty }
  if (t fname).isSome then (-1, t)
  else (0, t.insert fname entry)

/-- Variable::default_hide (src/variable.rs:52-72): nothing to do when the
variable has no name; otherwise remove the entry under the stored name and
keep it removed iff its address and type id identify the caller — when
they identify a different object the entry is reinserted, leaving the table
as it was. -/
def default_hide (t : VarTable) (var_name : String) (self_ptr ty : Nat) :
    Bool × VarTable :=
  if var_name = "" then (false, t)
  else
    match t var_name with
    | none => (false, t)
    | some entry =>
      if entry.var_ptr = self_ptr ∧ entry.type_id = ty then (true, t.remove var_name)
      else (false, t)

/-- C5: with the full name not yet in the table, exposing a first object
returns 0 and registers its address + type id; exposing a second, distinct
live object under the same full name returns -1 and leaves the first
registration in place; after the first object hides itself (hide returns
true, the identity check comparing stored address and type id), exposing
that name again returns 0. -/
theorem c5_name_conflict (t : VarTable) (ptr1 ty1 ptr2 ty2 : Nat) (pre nm : String)
    (hfree : t (full_name pre nm) = none)
    (_hdistinct : (ptr1, ty1) ≠ (ptr2, ty2))
    (hnamed : full_name pre nm ≠ "") :
    (default_expose_impl t ptr1 ty1 pre nm).1 = 0
    ∧ (default_expose_impl t ptr1 ty1 pre nm).2 (full_name pre nm)
        = some { var_ptr := ptr1, type_id := ty1 }
    ∧ (default_expose_impl (default_expose_impl t ptr1 ty1 pre nm).2 ptr2 ty2 pre nm).1 = -1
    ∧ (default_expose_impl (default_expose_impl t ptr1 ty1 pre nm).2 ptr2 ty2 pre nm).2
        = (default_expose_impl t ptr1 ty1 pre nm).2
    ∧ (default_hide (default_expose_impl t ptr1 ty1 pre nm).2 (full_name pre nm) ptr1 ty1).1
        = true
    ∧ (default_expose_impl
        (default_hide (default_expose_impl t ptr1 ty1 pre nm).2 (full_name pre nm) ptr1 ty1).2
        ptr2 ty2 pre nm).1 = 0 := by
  have hfalse : (t (full_name pre nm)).isSome = false := by simp [hfree]
  have ht1 : (default_expose_impl t ptr1 ty1 pre nm).2
      = t.insert (full_name pre nm) { var_ptr := ptr1, type_id := ty1 } := by
    simp [default_expose_impl, hfalse]
  have h1 : t.insert (full_name pre nm) { var_ptr := ptr1, type_id := ty1 } (full_name pre nm)
      = some { var_ptr := ptr1, type_id := ty1 } := by
    simp [VarTable.insert]
  refine ⟨?_, ?_, ?_, ?_, ?_, ?_⟩
  · simp [default_expose_impl, hfalse]
  · rw [ht1, h1]
  · rw [ht1]; simp [default_expose_impl, h1]
  · rw [ht1]; simp [default_expose_impl, h1]
  · rw [ht1]; simp [default_hide, hnamed, h1]
  · rw [ht1]
    have h2 : (default_hide
          (t.insert (full_name pre nm) { var_ptr := ptr1, type_id := ty1 })
          (full_name pre nm) ptr1 ty1).2 (full_name pre nm) = none := by
      simp [default_hide, hnamed, h1, VarTable.remove]
    simp [default_expose_impl, h2]

/-- Witness for c5_name_conflict on the empty table: object (addr 1, type
10) exposes "foo" with status 0, object (addr 2, type 10) gets -1, the
first hides, and the name is free again. -/
theorem c5_witness :
    (default_expose_impl VarTable.emptyTable 1 10 "" "foo").1 = 0
    ∧ (default_expose_impl VarTable.emptyTable 1 10 "" "foo").2 (full_name "" "foo")
        = some { var_ptr := 1, type_id := 10 }
    ∧ (default_expose_impl (default_expose_impl VarTable.emptyTable 1 10 "" "foo").2
        2 10 "" "foo").1 = -1
    ∧ (default_expose_impl (default_expose_impl VarTable.emptyTable 1 10 "" "foo").2
        2 10 "" "foo").2 = (default_expose_impl VarTable.emptyTable 1 10 "" "foo").2
    ∧ (default_hide (default_expose_impl VarTable.emptyTable 1 10 "" "foo").2
        (full_name "" "foo") 1 10).1 = true
    ∧ (default_expose_impl
        (default_hide (default_expose_impl VarTable.emptyTable 1 10 "" "foo").2
          (full_name "" "foo") 1 10).2
        2 10 "" "foo").1 = 0 :=
  c5_name_conflict VarTable.emptyTable 1 10 2 10 "" "foo" rfl (by decide) (by decide)

/-! ## Samplers (src/detail/sampler.rs) -/

/-- The externally visible effect of one ReducerSampler::take_sample call:
the error-handler hook invocation (the source invokes it with a fixed
message after combining and discarding the sampled value). -/
inductive SampleEffect (T : Type) where
  | handled (msg : String) : SampleEffect T
deriving Repr, DecidableEq

/-- ReducerSampler (src/detail/sampler.rs:161-179).  The weak owner
reference is modelled by an id, the upgrade result being supplied at call
time; inv_op and the error-handler object carry no state and are omitted;
weak_self holds the optional weak handle stored at construction. -/
structure ReducerSampler (T : Type) where
  owner : Nat
  destroyed : Bool
  op : T → T → T
  weak_self : Option Nat

/-- ReducerSampler::take_sample (src/detail/sampler.rs:277-295): a no-op
when destroyed; otherwise upgrade the owner — silently nothing to do when
the owner is gone — else read its value, combine it (result discarded, as
in the source) and invoke the error handler. -/
def ReducerSampler.take_sample {T : Type} (s : ReducerSampler T) (owner_value : Option T) :
    ReducerSampler T × List (SampleEffect T) :=
  if s.destroyed then (s, [])
  else
    match owner_value with
    | none => (s, [])
    | some v =>
      let _ := s.op v v
      (s, [SampleEffect.handled "采样错误"])

/-- ReducerSampler::destroy (src/detail/sampler.rs:301-303): set the
destroyed flag. -/
def ReducerSampler.destroy {T : Type} (s : ReducerSampler T) : ReducerSampler T :=
  { s with destroyed := true }

/-- The state-passing operations of ReducerSampler. -/
inductive RSOp (T : Type) where
  | take_sample (owner_value : Option T)
  | destroy

/-- One ReducerSampler operation as a state transformer. -/
def ReducerSampler.step {T : Type} (s : ReducerSampler T) : RSOp T → ReducerSampler T
  | RSOp.take_sample ov => (s.take_sample ov).1
  | RSOp.destroy => s.destroy

/-- SeriesSampler (src/detail/sampler.rs:307-314): a bounded sample list
plus the destroyed flag. -/
structure SeriesSampler (T : Type) where
  data : List T
  destroyed : Bool
deriving Repr, DecidableEq

/-- SeriesSampler::new (src/detail/sampler.rs:322-328). -/
def SeriesSampler.new {T : Type} : SeriesSampler T :=
  { data := [], destroyed := false }

/-- SeriesSampler::append (src/detail/sampler.rs:331-345): a no-op when
destroyed; otherwise push the value and evict the front when over
capacity. -/
def SeriesSampler.append {T : Type} (s : SeriesSampler T) (value : T) : SeriesSampler T :=
  if s.destroyed then s
  else
    let data := s.data ++ [value]
    { s with data := if data.length > SERIES_IN_SECOND then data.drop 1 else data }

/-- SeriesSampler::take_sample (src/detail/sampler.rs:362-364): an empty
body — series samplers are driven by append, not by the sweep. -/
def SeriesSampler.take_sample {T : Type} (s : SeriesSampler T) : SeriesSampler T := s

/-- SeriesSampler::destroy (src/detail/sampler.rs:390-392). -/
def SeriesSampler.destroy {T : Type} (s : SeriesSampler T) : SeriesSampler T :=
  { s with destroyed := true }

/-- The state-passing operations of SeriesSampler. -/
inductive SSOp (T : Type) where
  | append (v : T)
  | take_sample
  | destroy

/-- One SeriesSampler operation as a state transformer. -/
def SeriesSampler.step {T : Type} (s : SeriesSampler T) : SSOp T → SeriesSampler T
  | SSOp.append v => s.append v
  | SSOp.take_sample => s.take_sample
  | SSOp.destroy => s.destroy

/-- C6: once destroyed, ReducerSampler::take_sample returns the unchanged
state with no effects, and SeriesSampler::append and take_sample return the
unchanged state; the destroyed flag is monotone — every operation of either
type preserves destroyed = true, so the no-op behaviour is permanent. -/
theorem c6_destroy_permanent {T : Type} :
    (∀ (s : ReducerSampler T) (ov : Option T),
        s.destroyed = true → s.take_sample ov = (s, []))
    ∧ (∀ (s : ReducerSampler T) (o : RSOp T),
        s.destroyed = true → (s.step o).destroyed = true)
    ∧ (∀ (s : SeriesSampler T) (v : T),
        s.destroyed = true → s.append v = s ∧ s.take_sample = s)
    ∧ (∀ (s : SeriesSampler T) (o : SSOp T),
        s.destroyed = true → (s.step o).destroyed = true) := by
  refine ⟨?_, ?_, ?_, ?_⟩
  · intro s ov h; simp [ReducerSampler.take_sample, h]
  · intro s o h
    cases o <;> simp [ReducerSampler.step, ReducerSampler.take_sample,
      ReducerSampler.destroy, h]
  · intro s v h; exact ⟨by simp [SeriesSampler.append, h], rfl⟩
  · intro s o h
    cases o <;> simp [SeriesSampler.step, SeriesSampler.append,
      SeriesSampler.take_sample, SeriesSampler.destroy, h]

/-- Witness for c6_destroy_permanent on concrete destroyed samplers. -/
theorem c6_witness :
    ReducerSampler.take_sample
        { owner := 0, destroyed := true, op := Nat.add, weak_self := some 0 } (some 7)
      = ({ owner := 0, destroyed := true, op := Nat.add, weak_self := some 0 }, [])
    ∧ (ReducerSampler.step
        { owner := 0, destroyed := true, op := Nat.add, weak_self := some 0 }
        (RSOp.take_sample (some 7))).destroyed = true
    ∧ (SeriesSampler.append { data := [1, 2], destroyed := true } 3
          = { data := [1, 2], destroyed := true }
       ∧ SeriesSampler.take_sample { data := ([1, 2] : List Nat), destroyed := true }
          = { data := [1, 2], destroyed := true })
    ∧ (SeriesSampler.step { data := ([1, 2] : List Nat), destroyed := true }
        (SSOp.append 3)).destroyed = true :=
  ⟨(c6_destroy_permanent (T := Nat)).1 _ (some 7) rfl,
   (c6_destroy_permanent (T := Nat)).2.1 _ (RSOp.take_sample (some 7)) rfl,
   (c6_destroy_permanent (T := Nat)).2.2.1 _ 3 rfl,
   (c6_destroy_permanent (T := Nat)).2.2.2 _ (SSOp.append 3) rfl⟩

/-- An allocation store for the Arc/Weak discipline around ReducerSampler:
slot ids map to live allocations; a weak handle is a slot id whose upgrade
is the slot lookup. -/
structure SamplerHeap (T : Type) where
  heap : Nat → Option (ReducerSampler T)
  next : Nat

/-- The empty allocation store. -/
def SamplerHeap.emptyHeap {T : Type} : SamplerHeap T :=
  { heap := fun _ => none, next := 0 }

/-- Arc::new_cyclic: in one atomic step, reserve a fresh slot, hand the
initialiser the weak handle to that very slot, and store the constructed
object there — no intermediate state in which the object is allocated but
its self handle is absent. -/
def arcNewCyclic {T : Type} (h : SamplerHeap T) (mk : Nat → ReducerSampler T) :
    Nat × SamplerHeap T :=
  let id := h.next
  (id, { heap := fun k => if k = id then some (mk id) else h.heap k, next := id + 1 })

/-- Weak::upgrade against the allocation store. -/
def weakUpgrade {T : Type} (h : SamplerHeap T) (id : Nat) : Option (ReducerSampler T) :=
  h.heap id

/-- ReducerSampler::new (src/detail/sampler.rs:191-221): constructed via
Arc::new_cyclic, the closure storing its weak argument into weak_self —
so the field is populated before the Arc is returned to any caller. -/
def ReducerSampler.new {T : Type} (h : SamplerHeap T) (owner : Nat) (op : T → T → T) :
    Nat × SamplerHeap T :=
  arcNewCyclic h (fun weak =>
    { owner := owner, destroyed := false, op := op, weak_self := some weak })

/-- GlobalSamplerState::register_sampler, the list part
(src/detail/sampler.rs:68-77): prune entries whose upgrade fails, then
append the new weak reference. -/
def register_weak {T : Type} (h : SamplerHeap T) (registry : List Nat) (weak : Nat) :
    List Nat :=
  registry.filter (fun w => (weakUpgrade h w).isSome) ++ [weak]

/-- ReducerSampler::schedule (src/detail/sampler.rs:224-235): if weak_self
holds a weak handle, register it with the global registry and return true;
only an absent weak_self yields false. -/
def ReducerSampler.schedule {T : Type} (s : ReducerSampler T) (h : SamplerHeap T)
    (registry : List Nat) : Bool × List Nat :=
  match s.weak_self with
  | some weak => (true, register_weak h registry weak)
  | none => (false, registry)

/-- C7: ReducerSampler::new populates weak_self with the weak handle to the
new allocation itself before the object is observable, so the stored weak
reference upgrades successfully on the very first external observation, and
schedule() on the upgraded sampler finds Some(weak) and returns true,
appending the sampler's own handle to the global registry. -/
theorem c7_weak_self_populated {T : Type} (h : SamplerHeap T) (owner : Nat)
    (op : T → T → T) (registry : List Nat) :
    weakUpgrade (ReducerSampler.new h owner op).2 (ReducerSampler.new h owner op).1
      = some { owner := owner, destroyed := false, op := op,
               weak_self := some (ReducerSampler.new h owner op).1 }
    ∧ ∀ (s : ReducerSampler T),
        weakUpgrade (ReducerSampler.new h owner op).2 (ReducerSampler.new h owner op).1
          = some s →
        s.weak_self = some (ReducerSampler.new h owner op).1
        ∧ (s.schedule (ReducerSampler.new h owner op).2 registry).1 = true
        ∧ (s.schedule (ReducerSampler.new h owner op).2 registry).2
            = register_weak (ReducerSampler.new h owner op).2 registry
                (ReducerSampler.new h owner op).1 := by
  have hup : weakUpgrade (ReducerSampler.new h owner op).2 (ReducerSampler.new h owner op).1
      = some { owner := owner, destroyed := false, op := op,
               weak_self := some (ReducerSampler.new h owner op).1 } := by
    simp [ReducerSampler.new, arcNewCyclic, weakUpgrade]
  refine ⟨hup, ?_⟩
  intro s hs
  have hseq : s = { owner := owner, destroyed := false, op := op,
                    weak_self := some (ReducerSampler.new h owner op).1 } := by
    have := hup.symm.trans hs
    exact (Option.some.inj this).symm
  subst hseq
  exact ⟨rfl, rfl, rfl⟩

/-- Witness for c7_weak_self_populated on the empty allocation store:
slot 0 upgrades to the freshly built sampler, whose schedule succeeds. -/
theorem c7_witness :
    weakUpgrade (ReducerSampler.new (SamplerHeap.emptyHeap (T := Nat)) 3 Nat.add).2
        (ReducerSampler.new (SamplerHeap.emptyHeap (T := Nat)) 3 Nat.add).1
      = some { owner := 3, destroyed := false, op := Nat.add,
               weak_self := some (ReducerSampler.new (SamplerHeap.emptyHeap (T := Nat)) 3 Nat.add).1 }
    ∧ (ReducerSampler.schedule
        { owner := 3, destroyed := false, op := Nat.add,
          weak_self := some (ReducerSampler.new (SamplerHeap.emptyHeap (T := Nat)) 3 Nat.add).1 }
        (ReducerSampler.new (SamplerHeap.emptyHeap (T := Nat)) 3 Nat.add).2 [7]).1 = true :=
  ⟨(c7_weak_self_populated (SamplerHeap.emptyHeap (T := Nat)) 3 Nat.add [7]).1,
   ((c7_weak_self_populated (SamplerHeap.emptyHeap (T := Nat)) 3 Nat.add [7]).2 _
      (c7_weak_self_populated (SamplerHeap.emptyHeap (T := Nat)) 3 Nat.add [7]).1).2.1⟩

/-! ## The global sampler registry lifecycle (src/detail/sampler.rs:30-157) -/

/-- The global registry state (src/detail/sampler.rs:55-64) together with
the number of live driver-thread loops, which the source tracks implicitly
through thread::spawn and loop exit.  A weak sampler entry is abstracted to
a Bool recording whether its upgrade still succeeds; timing fields do not
affect the lifecycle invariant and are dropped. -/
structure GlobalSamplerState where
  samplers : List Bool
  is_running : Bool
  drivers : Nat
deriving Repr, DecidableEq

/-- The initial registry (src/detail/sampler.rs:30-37): no samplers, not
running, no driver thread. -/
def GlobalSamplerState.init : GlobalSamplerState :=
  { samplers := [], is_running := false, drivers := 0 }

/-- register_sampler (src/detail/sampler.rs:68-83) as one lock-held step:
prune dead entries, push the new weak reference, and — only if is_running
is false — set it and spawn a driver thread (drivers + 1);
start_sampler_thread rechecks is_running under the same lock, so no second
driver can be spawned while one runs. -/
def GlobalSamplerState.register_sampler (s : GlobalSamplerState) (alive : Bool) :
    GlobalSamplerState :=
  let samplers := s.samplers.filter id ++ [alive]
  if s.is_running then { s with samplers := samplers }
  else { samplers := samplers, is_running := true, drivers := s.drivers + 1 }

/-- The driver loop's terminal lock section (src/detail/sampler.rs:144-152)
as one atomic step: prune dead entries; if none remain, clear is_running
and exit the loop (drivers - 1) — the flag transition is atomic with the
decision to exit — otherwise keep looping. -/
def GlobalSamplerState.driver_sweep_end (s : GlobalSamplerState) : GlobalSamplerState :=
  let samplers := s.samplers.filter id
  if samplers.isEmpty then
    { samplers := samplers, is_running := false, drivers := s.drivers - 1 }
  else { s with samplers := samplers }

/-- One transition of the registry: a register call, a driver finishing a
sweep (requires a live driver), or a sampler owner dropping, which makes
that weak entry dead.  The snapshot phase of the sweep and take_sample
calls do not touch the registry fields and need no step. -/
inductive RegStep : GlobalSamplerState → GlobalSamplerState → Prop where
  | register {s : GlobalSamplerState} (alive : Bool) :
      RegStep s (s.register_sampler alive)
  | sweep_end {s : GlobalSamplerState} (hdriver : 1 ≤ s.drivers) :
      RegStep s s.driver_sweep_end
  | owner_dropped {s : GlobalSamplerState} (i : Nat) :
      RegStep s { s with samplers := s.samplers.set i false }

/-- States reachable from the initial registry. -/
inductive RegReachable : GlobalSamplerState → Prop where
  | init : RegReachable GlobalSamplerState.init
  | step {s s' : GlobalSamplerState} :
      RegReachable s → RegStep s s' → RegReachable s'

/-- C8: in every reachable registry state, is_running is true iff a driver
thread is alive, and at most one driver thread is ever alive: registration
spawns only when is_running is false (setting it in the same lock-held
step), and a driver clears is_running atomically with its decision to exit
on an empty sampler list. -/
theorem c8_single_driver (s : GlobalSamplerState) (h : RegReachable s) :
    (s.is_running = true ↔ 1 ≤ s.drivers) ∧ s.drivers ≤ 1 := by
  have key : ∀ (u : GlobalSamplerState), RegReachable u →
      u.drivers = (if u.is_running then 1 else 0) := by
    intro u hu
    induction hu with
    | init => rfl
    | @step v w hr hstep ih =>
      cases hstep with
      | register alive =>
        by_cases hrun : v.is_running <;>
          simp [GlobalSamplerState.register_sampler, hrun, ih]
      | sweep_end hdriver =>
        cases hrunb : v.is_running with
        | false =>
          exfalso
          rw [hrunb] at ih
          simp at ih
          omega
        | true =>
          rw [hrunb] at ih
          simp at ih
          by_cases hempty : (v.samplers.filter id).isEmpty
          · simp [GlobalSamplerState.driver_sweep_end, hempty, ih]
          · simp [GlobalSamplerState.driver_sweep_end, hempty, hrunb, ih]
      | owner_dropped i => simpa using ih
  have hk := key s h
  refine ⟨⟨?_, ?_⟩, ?_⟩
  · intro hr
    rw [hr] at hk
    simp at hk
    omega
  · intro hd
    cases hb : s.is_running with
    | true => rfl
    | false =>
      exfalso
      rw [hb] at hk
      simp at hk
      omega
  · cases hb : s.is_running with
    | true => rw [hb] at hk; simp at hk; omega
    | false => rw [hb] at hk; simp at hk; omega

/-- Witness for c8_single_driver at the initial state. -/
theorem c8_witness :
    (GlobalSamplerState.init.is_running = true ↔ 1 ≤ GlobalSamplerState.init.drivers)
    ∧ GlobalSamplerState.init.drivers ≤ 1 :=
  c8_single_driver GlobalSamplerState.init RegReachable.init

/-! ## Series::describe (src/detail/series.rs:152-215) -/

/-- Series display options.  Modelled from the spec: the type is referenced
as crate::variable::SeriesOptions by src/detail/series.rs but its
definition is absent from the sources under src/; describe only reads its
fixed_length flag, printed into the meta object (spec §6). -/
structure SeriesOptions where
  fixed_length : Bool
deriving Repr, DecidableEq

/-- The comma loop of Series::describe_series_data
(src/detail/series.rs:193-213): a fold carrying the output text and the
`first` flag, writing a comma before every item except the first. -/
def writeJoin (items : List String) : String :=
  (items.foldl
    (fun (acc : String × Bool) it =>
      (acc.1 ++ (if acc.2 then "" else ",") ++ it, false))
    ("", true)).1

/-- Series::describe_series_data (src/detail/series.rs:189-215): one tier
object — its name, then parallel timestamps and values arrays rendered
with the comma loop; values are printed with the Debug formatter fmt. -/
def describe_series_data {T : Type} (fmt : T → String) (name : String)
    (points : List (DataPoint T)) : String :=
  "\"" ++ name ++ "\":\x7b\"timestamps\":["
    ++ writeJoin (points.map (fun p => toString p.timestamp))
    ++ "],\"values\":["
    ++ writeJoin (points.map (fun p => fmt p.value))
    ++ "]\x7d"

/-- Series::describe (src/detail/series.rs:152-186): the meta object with
the fixed_length option, then the data object holding the four tiers in
the order second, minute, hour, day. -/
def Series.describe {T : Type} (fmt : T → String) (s : Series T)
    (options : SeriesOptions) : String :=
  "\x7b\"meta\":\x7b\"name\":\"time_series\",\"fixed_length\":"
    ++ (if options.fixed_length then "true" else "false")
    ++ "\x7d,\"data\":\x7b"
    ++ describe_series_data fmt "second" s.second_points ++ ","
    ++ describe_series_data fmt "minute" s.minute_points ++ ","
    ++ describe_series_data fmt "hour" s.hour_points ++ ","
    ++ describe_series_data fmt "day" s.day_points
    ++ "\x7d\x7d"

/-- Comma-separated join, the way the spec describes the arrays. -/
def commaSep : List String → String
  | [] => ""
  | [x] => x
  | x :: xs => x ++ "," ++ commaSep xs

/-- Every element preceded by a comma. -/
def commaTail : List String → String
  | [] => ""
  | x :: xs => "," ++ x ++ commaTail xs

/-- The JSON tier object the spec describes (§6): a named object with
parallel timestamps and values arrays listing the points in stored order,
empty arrays (never null) when the tier is empty. -/
def specTierJson {T : Type} (fmt : T → String) (name : String)
    (points : List (DataPoint T)) : String :=
  "\"" ++ name ++ "\":\x7b\"timestamps\":["
    ++ commaSep (points.map (fun p => toString p.timestamp))
    ++ "],\"values\":["
    ++ commaSep (points.map (fun p => fmt p.value))
    ++ "]\x7d"

/-- The whole JSON snapshot the spec describes (§6): the meta object, then
exactly the four tiers second, minute, hour, day in that order. -/
def specDescribeJson {T : Type} (fmt : T → String) (s : Series T)
    (options : SeriesOptions) : String :=
  "\x7b\"meta\":\x7b\"name\":\"time_series\",\"fixed_length\":"
    ++ (if options.fixed_length then "true" else "false")
    ++ "\x7d,\"data\":\x7b"
    ++ specTierJson fmt "second" s.second_points ++ ","
    ++ specTierJson fmt "minute" s.minute_points ++ ","
    ++ specTierJson fmt "hour" s.hour_points ++ ","
    ++ specTierJson fmt "day" s.day_points
    ++ "\x7d\x7d"

/-- The comma loop, resumed after the first element, appends a
comma-led tail. -/
theorem writeJoin_foldl_eq (l : List String) :
    ∀ (s : String),
      (l.foldl (fun (acc : String × Bool) it =>
          (acc.1 ++ (if acc.2 then "" else ",") ++ it, false)) (s, false)).1
        = s ++ commaTail l := by
  induction l with
  | nil => intro s; simp [commaTail]
  | cons x xs ih =>
    intro s
    simp only [List.foldl_cons, if_neg Bool.false_ne_true, commaTail]
    rw [ih]
    simp [String.append_assoc]

/-- commaSep splits into head and comma-led tail. -/
theorem commaSep_cons (x : String) (xs : List String) :
    commaSep (x :: xs) = x ++ commaTail xs := by
  induction xs generalizing x with
  | nil => simp [commaSep, commaTail]
  | cons y ys ih =>
    simp only [commaSep, commaTail, ih y]
    simp [String.append_assoc]

/-- The comma loop of the source equals the spec's comma-separated join. -/
theorem writeJoin_eq_commaSep (l : List String) : writeJoin l = commaSep l := by
  cases l with
  | nil => rfl
  | cons x xs =>
    simp only [writeJoin, List.foldl_cons]
    rw [writeJoin_foldl_eq xs]
    simp [commaSep_cons, String.empty_append]

/-- C9: for every Series state, describe emits exactly the JSON shape the
spec gives — meta with name "time_series" and the fixed_length flag, then
a data object containing exactly the four tier objects second, minute,
hour, day in that order, each tier holding parallel timestamps/values
arrays of equal length listing the tier's points in stored
(oldest-to-newest) order; an empty tier yields two empty arrays, never
null, as the closed empty-series snapshot shows. -/
theorem c9_describe_shape {T : Type} (fmt : T → String) (s : Series T)
    (options : SeriesOptions) :
    Series.describe fmt s options = specDescribeJson fmt s options
    ∧ (∀ (points : List (DataPoint T)),
        (points.map (fun p => toString p.timestamp)).length
          = (points.map (fun p => fmt p.value)).length)
    ∧ describe_series_data fmt "second" ([] : List (DataPoint T))
        = "\"second\":\x7b\"timestamps\":[],\"values\":[]\x7d"
    ∧ Series.describe fmt (Series.new : Series T) options
        = "\x7b\"meta\":\x7b\"name\":\"time_series\",\"fixed_length\":"
          ++ (if options.fixed_length then "true" else "false")
          ++ "\x7d,\"data\":\x7b\"second\":\x7b\"timestamps\":[],\"values\":[]\x7d,\"minute\":\x7b\"timestamps\":[],\"values\":[]\x7d,\"hour\":\x7b\"timestamps\":[],\"values\":[]\x7d,\"day\":\x7b\"timestamps\":[],\"values\":[]\x7d\x7d\x7d" := by
  refine ⟨?_, ?_, ?_, ?_⟩
  · simp [Series.describe, specDescribeJson, describe_series_data, specTierJson,
      writeJoin_eq_commaSep]
  · intro points; simp
  · rfl
  · cases hfl : options.fixed_length <;>
      simp [Series.describe, describe_series_data, Series.new, writeJoin, hfl]

/-! ## IntRecorder and Stat (src/recorder.rs) -/

/-- Running statistics (src/recorder.rs, struct Stat): sum and count as
i64, modelled as unbounded integers. -/
structure Stat where
  sum : Int
  num : Int
deriving Repr, DecidableEq

/-- Integer division guarded against a zero divisor: Rust i64 division
panics when the divisor is zero, so the panic is modelled as none.
Int.tdiv matches Rust's truncation toward zero. -/
def checkedDivInt (a b : Int) : Option Int :=
  if b = 0 then none else some (Int.tdiv a b)

/-- Stat::get_average_int (src/recorder.rs:39-44): 0 when num == 0,
otherwise sum / num — the division is only reached when num is nonzero. -/
def Stat.get_average_int (s : Stat) : Option Int :=
  if s.num = 0 then some 0 else checkedDivInt s.sum s.num

/-- Stat::get_average_double (src/recorder.rs:47-52): 0.0 when num == 0,
otherwise the f64 quotient (f64 division cannot trap). -/
def Stat.get_average_double (s : Stat) : Float :=
  if s.num = 0 then 0.0 else Float.ofInt s.sum / Float.ofInt s.num

/-- IntRecorder (src/recorder.rs:110-117): the thread-local agents, each
holding one Stat, as an association list keyed by thread id. -/
structure IntRecorder where
  tls : List (Nat × Stat)
deriving Repr, DecidableEq

/-- IntRecorder::new (src/recorder.rs:125-131). -/
def IntRecorder.newRecorder : IntRecorder := { tls := [] }

/-- IntRecorder::add (src/recorder.rs:148-162): get or lazily create the
calling thread's Stat (created as the 0/0 default), then
sum += sample, num += 1. -/
def IntRecorder.add (r : IntRecorder) (tid : Nat) (sample : Int) : IntRecorder :=
  match r.tls.find? (fun p => p.1 == tid) with
  | some _ =>
    { tls := r.tls.map (fun p =>
        if p.1 == tid then (p.1, { sum := p.2.sum + sample, num := p.2.num + 1 }) else p) }
  | none => { tls := r.tls ++ [(tid, { sum := sample, num := 1 })] }

/-- IntRecorder::get_value (src/recorder.rs:175-184): fold all agents'
stats with += starting from the default. -/
def IntRecorder.get_value (r : IntRecorder) : Stat :=
  r.tls.foldl
    (fun acc p => { sum := acc.sum + p.2.sum, num := acc.num + p.2.num })
    { sum := 0, num := 0 }

/-- IntRecorder::average (src/recorder.rs:165-167). -/
def IntRecorder.average (r : IntRecorder) : Option Int :=
  r.get_value.get_average_int

/-- IntRecorder::average_double (src/recorder.rs:170-172). -/
def IntRecorder.average_double (r : IntRecorder) : Float :=
  r.get_value.get_average_double

/-- C10: get_average_int and get_average_double return 0 (0.0) exactly when
num == 0 and sum/num otherwise, so they never divide by zero; consequently
IntRecorder::average is total (never the division-panic case) for every
sequence of add calls, including the freshly created recorder, whose
average is 0. -/
theorem c10_average_total :
    (∀ s : Stat, s.num = 0 → s.get_average_int = some 0 ∧ s.get_average_double = 0.0)
    ∧ (∀ s : Stat, s.num ≠ 0 → s.get_average_int = some (Int.tdiv s.sum s.num))
    ∧ (∀ s : Stat, s.get_average_int.isSome = true)
    ∧ (∀ (adds : List (Nat × Int)),
        ((adds.foldl (fun r p => r.add p.1 p.2) IntRecorder.newRecorder).average).isSome
          = true)
    ∧ IntRecorder.newRecorder.average = some 0
    ∧ IntRecorder.newRecorder.average_double = 0.0 := by
  have htotal : ∀ s : Stat, s.get_average_int.isSome = true := by
    intro s
    by_cases h : s.num = 0 <;> simp [Stat.get_average_int, checkedDivInt, h]
  refine ⟨?_, ?_, htotal, ?_, rfl, rfl⟩
  · intro s h
    exact ⟨by simp [Stat.get_average_int, h], by simp [Stat.get_average_double, h]⟩
  · intro s h
    simp [Stat.get_average_int, checkedDivInt, h]
  · intro adds
    exact htotal _

/-- Witness for c10_average_total on concrete stats and one add call. -/
theorem c10_witness :
    Stat.get_average_int { sum := 5, num := 0 } = some 0
    ∧ Stat.get_average_double { sum := 5, num := 0 } = 0.0
    ∧ Stat.get_average_int { sum := 7, num := 2 } = some (Int.tdiv 7 2)
    ∧ ((IntRecorder.newRecorder.add 0 5).average).isSome = true :=
  ⟨(c10_average_total.1 { sum := 5, num := 0 } rfl).1,
   (c10_average_total.1 { sum := 5, num := 0 } rfl).2,
   c10_average_total.2.1 { sum := 7, num := 2 } (by decide),
   c10_average_total.2.2.2.1 [(0, 5)]⟩

end BvarSpec
